import Mathlib

/-!
Verification of the consul-generator synchronization core against its
natural-language specification.

The Go source is shallowly embedded:
* `time.Duration` values are integers counting nanoseconds; the
  `time.Duration` multiplication in the retry backoff is signed 64-bit
  and wraps, which is modelled exactly by `wrap64` (reduction into
  `[-2^63, 2^63)`);
* pointer-typed optional configuration fields become `Option` values and
  the `*Val` helpers from `config/convert.go` are reproduced verbatim;
* `int(math.Log2(x))` (a truncation toward zero of the base-2 logarithm)
  is modelled exactly over `ℚ` with `Int.log` / `Int.clog`,
  idealizing the float computation as exact real arithmetic;
* the filesystem is an explicit `World` value (an association list of
  files plus a set of directories); paths on which `os.Create` /
  `os.OpenFile` would fail are recorded in `World.badWrite`, directories
  on which `os.MkdirAll` would fail in `World.badDirs`;
* channel sends become lists of sent values accumulated in the result of
  each operation; `close` of the done channel becomes a counter.
-/

namespace ConsulGen

/-! ## Shared filesystem world -/

/-- A key/value pair returned by the remote KV listing
(`api.KVPair`: a hierarchical key and an opaque payload, here a byte
string). -/
structure KVPair where
  key : String
  value : String
deriving DecidableEq

/-- The relevant slice of the machine's state: the files on disk (path to
content), the existing directories, and the paths on which a file
create/write (resp. a directory create) would fail with an I/O error. -/
structure World where
  files : List (String × String)
  dirs : List String
  badWrite : List String
  badDirs : List String
deriving DecidableEq

/-- Read a file's content (`ioutil.ReadFile`): `none` means the read
fails, in particular when the file does not exist. -/
def lookupFile : List (String × String) → String → Option String
  | [], _ => none
  | (k, v) :: rest, f => if k = f then some v else lookupFile rest f

/-- Create/truncate-and-write a file (`os.Create` + `io.Copy`). -/
def setFile : List (String × String) → String → String → List (String × String)
  | [], f, v => [(f, v)]
  | (k, w) :: rest, f, v =>
    if k = f then (f, v) :: rest else (k, w) :: setFile rest f v

/-- Remove a file (`os.Remove`). -/
def removeFile (fs : List (String × String)) (f : String) : List (String × String) :=
  fs.filter (fun kv => kv.1 ≠ f)

/-! ## `config/retry.go` -/

namespace Config

/-- `config.BoolVal`: dereference a possibly-nil `*bool`, nil meaning
`false`. -/
def boolVal (b : Option Bool) : Bool := b.getD false

/-- `config.IntVal`: dereference a possibly-nil `*int`, nil meaning `0`. -/
def intVal (i : Option Int) : Int := i.getD 0

/-- `config.TimeDurationVal`: dereference a possibly-nil `*time.Duration`
(nanosecond count), nil meaning `0`. -/
def timeDurationVal (t : Option Int) : Int := t.getD 0

/-- `config.StringVal`: dereference a possibly-nil `*string`, nil meaning
`""`. -/
def stringVal (s : Option String) : String := s.getD ""

/-- `config.RetryConfig`: all fields are pointers in the source, hence
`Option` here.  Durations are nanosecond counts. -/
structure RetryConfig where
  Attempts : Option Int
  Backoff : Option Int
  MaxBackoff : Option Int
  Enabled : Option Bool
deriving DecidableEq

/-- `DefaultRetryAttempts = 12`. -/
def DefaultRetryAttempts : Int := 12

/-- `DefaultRetryBackoff = 250 * time.Millisecond` in nanoseconds. -/
def DefaultRetryBackoff : Int := 250000000

/-- `DefaultRetryMaxBackoff = 1 * time.Minute` in nanoseconds. -/
def DefaultRetryMaxBackoff : Int := 60000000000

/-- `RetryConfig.Finalize`: fill every nil field with its default. -/
def RetryConfig.Finalize (c : RetryConfig) : RetryConfig where
  Attempts := some (c.Attempts.getD DefaultRetryAttempts)
  Backoff := some (c.Backoff.getD DefaultRetryBackoff)
  MaxBackoff := some (c.MaxBackoff.getD DefaultRetryMaxBackoff)
  Enabled := some (c.Enabled.getD true)

/-- Go's `int(math.Log2 q)` for a positive real argument: the base-2
logarithm truncated toward zero.  For `1 ≤ q` this is `⌊log₂ q⌋`
(`Int.log`), for `0 < q < 1` it is `⌈log₂ q⌉` (`Int.clog`).  The float
computation is idealized as exact. -/
def truncLog2 (q : ℚ) : Int :=
  if 1 ≤ q then Int.log 2 q else Int.clog 2 q

/-- Reduction of an integer into the signed 64-bit range
`[-2^63, 2^63)`: the two's-complement wrap that Go's `int64`
(`time.Duration`) arithmetic performs on overflow. -/
def wrap64 (x : Int) : Int := (x + 2 ^ 63) % 2 ^ 64 - 2 ^ 63

/-- `RetryConfig.RetryFunc` from `config/retry.go`, lines 79-104.  The
attempt index is a natural number (callers count attempts from 0); the
comparisons are carried out over `ℤ` exactly as Go's `int` comparisons.
`sleep := time.Duration(base) * baseSleep` with
`base := math.Pow(2, float64(retry))` is the int64 product of `2 ^ retry`
and `baseSleep`: the float64 `2 ^ retry` and its conversion to `int64`
are exact for `retry ≤ 62`, and the `time.Duration` multiplication wraps
(`wrap64`); for `retry ≥ 63` the float-to-int64 conversion is
implementation-dependent in Go and this model keeps the wrapped exact
product. -/
def RetryConfig.retryFunc (c : RetryConfig) (retry : ℕ) : Bool × Int :=
  if boolVal c.Enabled = false then (false, 0)
  else if 0 < intVal c.Attempts ∧ intVal c.Attempts - 1 < (retry : Int) then (false, 0)
  else
    let baseSleep := timeDurationVal c.Backoff
    let maxSleep := timeDurationVal c.MaxBackoff
    if 0 < maxSleep ∧ truncLog2 ((maxSleep : ℚ) / (baseSleep : ℚ)) < (retry : Int) then
      (true, maxSleep)
    else
      (true, wrap64 (2 ^ retry * baseSleep))

/-- The reference decision procedure exactly as the claim words it
(spec §4.1): cap check by "reached or exceeded", clamp threshold
`floor(log2(maxBackoff / baseBackoff))`, wait `baseBackoff * 2^i`.
`Int.log` is the floor of the base-2 logarithm over `ℚ`. -/
def retrySpecFloor (c : RetryConfig) (i : ℕ) : Bool × Int :=
  if boolVal c.Enabled = false then (false, 0)
  else if 0 < intVal c.Attempts ∧ intVal c.Attempts ≤ (i : Int) then (false, 0)
  else if 0 < timeDurationVal c.MaxBackoff ∧
      Int.log 2 ((timeDurationVal c.MaxBackoff : ℚ) / (timeDurationVal c.Backoff : ℚ))
        < (i : Int) then
    (true, timeDurationVal c.MaxBackoff)
  else (true, timeDurationVal c.Backoff * 2 ^ i)

/-- The reference decision procedure with the clamp threshold amended to
the truncation toward zero that Go's `int(math.Log2(...))` conversion
actually performs; otherwise worded as the claim. -/
def retrySpecTrunc (c : RetryConfig) (i : ℕ) : Bool × Int :=
  if boolVal c.Enabled = false then (false, 0)
  else if 0 < intVal c.Attempts ∧ intVal c.Attempts ≤ (i : Int) then (false, 0)
  else if 0 < timeDurationVal c.MaxBackoff ∧
      truncLog2 ((timeDurationVal c.MaxBackoff : ℚ) / (timeDurationVal c.Backoff : ℚ))
        < (i : Int) then
    (true, timeDurationVal c.MaxBackoff)
  else (true, timeDurationVal c.Backoff * 2 ^ i)

/-- A small but legal finalized policy: `attempts` 0 (unlimited),
`backoff` 3ns, `maxBackoff` 2ns, retries enabled.  It exercises the
`baseBackoff > maxBackoff` corner where Go's truncation toward zero of
`math.Log2` differs from the floor. -/
def smallCfg : RetryConfig := ⟨some 0, some 3, some 2, some true⟩

/-- A finalized policy with unlimited attempts (`attempts` 0), the
default 250ms base backoff, and no clamp (`maxBackoff` 0, documented
"0 means infinite").  At attempt index 36 the int64 product
`2^36 * 250000000` wraps negative. -/
def unlimitedCfg : RetryConfig := ⟨some 0, some 250000000, some 0, some true⟩

end Config

/-! ## `processor.go` (`src/unnamed/part_006`) -/

namespace Processor

/-- `ExitCodeOK int = 0` in the `processor` package const block. -/
def ExitCodeOK : Int := 0

/-- `ExitCodeError = 10 + iota` is the second ConstSpec of the block
(`ExitCodeOK` is the first), so `iota = 1` there and the value is `11`. -/
def ExitCodeError : Int := 10 + 1

/-- The slice of `config.Config` the `Processor` reads: `To` (destination
directory) and `From` (remote prefix), plus the `once` / `dry` flags the
constructor stores. -/
structure ProcCfg where
  toDir : String
  fromPath : String
  once : Bool
  dry : Bool
deriving DecidableEq

/-- `parts := strings.Split(pair.Key, "/"); filename := parts[len(parts)-1]`:
the segment of the key after the last `'/'` (the whole key when it has no
`'/'`, empty for keys ending in `'/'`). -/
def leafOf (k : String) : String :=
  String.mk ((k.data.reverse.takeWhile (fun c => c ≠ '/')).reverse)

/-- `filepath.Join(*p.config.To, filename)`, modelled as concatenation
with the separator (path cleaning is not modelled; the leaf contains no
separator by construction). -/
def joinPath (dir leaf : String) : String := dir ++ "/" ++ leaf

/-- `Processor.save`: in dry-run mode only log and return nil; otherwise
`os.Create` + `io.Copy` (failing exactly on the paths in
`World.badWrite`). -/
def save (dry : Bool) (fp s : String) (w : World) : Except String World :=
  if dry then Except.ok w
  else if fp ∈ w.badWrite then Except.error ("create " ++ fp)
  else Except.ok { w with files := setFile w.files fp s }

/-- The body of the `for _, pair := range keys` loop of
`Processor.Process` for one entry.  The content fingerprint (`getHash`,
hex-encoded SHA-256) is an abstract function `h`; `calculateFileHash`
returns `("", err)` on a read failure and `Process` discards the error,
so a missing/unreadable file contributes the fingerprint `""`.  On
success returns the new world and `some target` when `save` was invoked
(`none` when the entry was skipped); on a save failure returns the
world at the failure and the error. -/
def processEntry (dry : Bool) (toDir : String) (h : String → String) (w : World)
    (pair : KVPair) : Except (World × String) (World × Option String) :=
  let filename := leafOf pair.key
  if filename ≠ "" then
    let file := joinPath toDir filename
    let fHash := match lookupFile w.files file with
      | some content => h content
      | none => ""
    let sHash := h pair.value
    if fHash ≠ sHash then
      match save dry file pair.value w with
      | Except.ok w' => Except.ok (w', some file)
      | Except.error e => Except.error (w, e)
    else Except.ok (w, none)
  else Except.ok (w, none)

/-- The guard structure of `Processor.Process`'s loop body for one entry:
`some target` when the entry would be passed to `save` (non-empty leaf
and differing fingerprints against the given world), `none` when it is
skipped.  This is the per-entry "would write" determination; it is the
same nested condition as in `processEntry` and does not consult the
dry-run flag. -/
def entryDecision (toDir : String) (h : String → String) (w : World) (pair : KVPair) :
    Option String :=
  let filename := leafOf pair.key
  if filename ≠ "" then
    let file := joinPath toDir filename
    let fHash := match lookupFile w.files file with
      | some content => h content
      | none => ""
    if fHash ≠ h pair.value then some file else none
  else none

/-- The whole `for` loop of `Processor.Process`: entries in order, the
first save failure aborts the remainder.  Returns the final world and
the list of targets for which `save` was invoked. -/
def processList (dry : Bool) (toDir : String) (h : String → String) :
    World → List KVPair → Except (World × String) (World × List String)
  | w, [] => Except.ok (w, [])
  | w, pair :: rest =>
    match processEntry dry toDir h w pair with
    | Except.error e => Except.error e
    | Except.ok (w', s) =>
      match processList dry toDir h w' rest with
      | Except.error e => Except.error e
      | Except.ok (w'', l) => Except.ok (w'', s.toList ++ l)

/-- Observable outcome of one `Processor.Process` pass: the final world,
the values sent on the error channel, the number of sends on the done
channel, the targets passed to `save`, and the returned exit code. -/
structure PassOut where
  world : World
  errs : List String
  dones : Nat
  saved : List String
  exit : Int
deriving DecidableEq

/-- `Processor.Process` (`part_006`, lines 116-152).  The remote listing
result is an input (`p.kv.List` is the external collaborator): a listing
failure is sent on the error channel and ends the pass; otherwise each
entry is processed in order, a save failure is sent on the error channel
and aborts the pass, and on success a completion value is sent on the
done channel exactly when the processor is in once or dry mode. -/
def process (p : ProcCfg) (h : String → String) (listing : Except String (List KVPair))
    (w : World) : PassOut :=
  match listing with
  | Except.error e => ⟨w, [e], 0, [], ExitCodeError⟩
  | Except.ok keys =>
    match processList p.dry p.toDir h w keys with
    | Except.error (w', e) => ⟨w', [e], 0, [], ExitCodeError⟩
    | Except.ok (w', l) =>
      if p.once || p.dry then ⟨w', [], 1, l, ExitCodeOK⟩ else ⟨w', [], 0, l, ExitCodeOK⟩

/-- `Processor.init` (`part_006`, lines 94-109): outside dry-run mode,
create the destination directory when it does not exist (`os.MkdirAll`
failures, modelled by `World.badDirs`, are sent on the error channel and
logged, and init continues); in dry-run mode only log. -/
def initDir (dry : Bool) (toDir : String) (w : World) : World × List String :=
  if dry = false then
    if toDir ∈ w.dirs then (w, [])
    else if toDir ∈ w.badDirs then (w, ["mkdir " ++ toDir])
    else ({ w with dirs := toDir :: w.dirs }, [])
  else (w, [])

/-- Per-pass targets of the entries with a non-empty leaf, in order. -/
def targetsOf (toDir : String) (ks : List KVPair) : List String :=
  ks.filterMap (fun pair =>
    let s := leafOf pair.key
    if s = "" then none else some (joinPath toDir s))

end Processor

/-! ## `manager/runner.go` (`src/unnamed/part_009`) -/

namespace Manager

/-- The statements `Runner.Start` executes, in source order, before and
at the select loop.  `procPassStep` is the body of the timer case
(`pr.Process()`). -/
inductive StartStep where
  | storePidStep
  | sendErrStep (e : String)
  | runStep
  | newProcessorStep
  | selectLoopStep
  | procPassStep
deriving DecidableEq

/-- `Runner.Run` (`part_009`, lines 125-129): logs "initiating run" and
returns nil; it touches nothing else. -/
def runnerRun : Except String Unit := Except.ok ()

/-- `Runner.storePid` (`part_009`, lines 156-176): nothing when no PID
file path is configured; otherwise `os.OpenFile(path, CREATE|WRONLY|TRUNC)`
followed by writing the decimal process id. -/
def storePid (pidFile : String) (pid : Nat) (w : World) : Except String World :=
  if pidFile = "" then Except.ok w
  else if pidFile ∈ w.badWrite then
    Except.error ("runner: could not open pid file: " ++ pidFile)
  else Except.ok { w with files := setFile w.files pidFile (toString pid) }

/-- `Runner.deletePid` (`part_009`, lines 179-200): nothing when no PID
file path is configured; `os.Stat` failure (file absent) is an error, a
directory at the path is an error, otherwise `os.Remove`. -/
def deletePid (pidFile : String) (w : World) : Except String World :=
  if pidFile = "" then Except.ok w
  else if pidFile ∈ w.dirs then
    Except.error "runner: specified pid file path is directory"
  else
    match lookupFile w.files pidFile with
    | none => Except.error ("runner: could not remove pid file: " ++ pidFile)
    | some _ => Except.ok { w with files := removeFile w.files pidFile }

/-- Observable outcome of `Runner.Start` up to the select loop: the
world, the values sent on the error channel, whether the select loop was
entered, and the executed statement sequence. -/
structure StartOut where
  world : World
  errsSent : List String
  enteredLoop : Bool
  trace : List StartStep
deriving DecidableEq

/-- `Runner.Start` (`part_009`, lines 63-95) up to the select loop:
`storePid` first (an error is sent on the error channel and Start
returns); then `r.Run()` (an error is sent likewise); then
`processor.NewProcessor` and the select loop. -/
def runnerStart (pidFile : String) (pid : Nat) (w : World) : StartOut :=
  match storePid pidFile pid w with
  | Except.error e => ⟨w, [e], false, [StartStep.storePidStep, StartStep.sendErrStep e]⟩
  | Except.ok w1 =>
    match runnerRun with
    | Except.error e =>
      ⟨w1, [e], false, [StartStep.storePidStep, StartStep.runStep, StartStep.sendErrStep e]⟩
    | Except.ok _ =>
      ⟨w1, [], true,
        [StartStep.storePidStep, StartStep.runStep, StartStep.newProcessorStep,
          StartStep.selectLoopStep]⟩

/-- The three cases of the select loop in `Runner.Start`. -/
inductive RunnerEvent where
  | errRecv
  | tick
  | doneRecv
deriving DecidableEq

/-- One iteration of the select loop: receiving on the error channel
returns, a timer tick invokes one `Processor.Process` pass, receiving on
the done channel returns.  The `Bool` is whether the loop exits. -/
def loopReact : RunnerEvent → Bool × List StartStep
  | RunnerEvent.errRecv => (true, [])
  | RunnerEvent.tick => (false, [StartStep.procPassStep])
  | RunnerEvent.doneRecv => (true, [])

/-- The `Runner` fields `Runner.Stop` touches: the filesystem world, the
`stopped` flag, how many times the done channel has been closed, and the
values sent on the error channel. -/
structure RunnerState where
  world : World
  stopped : Bool
  doneCloses : Nat
  errsSent : List String
deriving DecidableEq

/-- `Runner.Stop` (`part_009`, lines 98-116), with the mutex-serialized
call as one atomic step: a no-op when already stopped; otherwise
best-effort `deletePid` (a failure is logged and the world left as it
was), set `stopped`, close the done channel. -/
def runnerStop (pidFile : String) (st : RunnerState) : RunnerState :=
  if st.stopped then st
  else
    let w := match deletePid pidFile st.world with
      | Except.ok w' => w'
      | Except.error _ => st.world
    ⟨w, true, st.doneCloses + 1, st.errsSent⟩

end Manager

/-! ## `cli.go` (`src/unnamed/part_000`) -/

namespace Main

/-- `ExitCodeOK int = 0`: the first ConstSpec of the block (`iota = 0`). -/
def ExitCodeOK : Int := 0

/-- `ExitCodeError = 10 + iota`: the second ConstSpec, so `iota = 1` and
the value is `11` (the blank line in the source is not a ConstSpec and
does not advance `iota`). -/
def ExitCodeError : Int := 10 + 1

/-- `ExitCodeInterrupt`: third ConstSpec, repeats `10 + iota` with
`iota = 2`. -/
def ExitCodeInterrupt : Int := 10 + 2

/-- `ExitCodeParseFlagsError`: fourth ConstSpec, `iota = 3`. -/
def ExitCodeParseFlagsError : Int := 10 + 3

/-- `ExitCodeRunnerError`: fifth ConstSpec, `iota = 4`. -/
def ExitCodeRunnerError : Int := 10 + 4

/-- `ExitCodeConfigError`: sixth ConstSpec, `iota = 5`. -/
def ExitCodeConfigError : Int := 10 + 5

/-- The events on which `Cli.Run` decides to return, one per `return`
statement: flag parsing (help / error), config load and logging setup
(at startup and on reload), the version flag, `NewRunner` failures (at
startup and on reload), a value on the runner's error channel (carrying
an exit-status hint when the error implements `ErrExitable`), the
runner's done channel, the kill signal, any other signal, and the
internal stop channel. -/
inductive CliEvent where
  | parseHelp
  | parseError
  | configLoadError
  | setupError
  | versionFlag
  | newRunnerError
  | runnerError (hint : Option Int)
  | runnerDone
  | reloadConfigLoadError
  | reloadSetupError
  | reloadNewRunnerError
  | killSignal
  | otherSignal
  | internalStop
deriving DecidableEq

/-- The exit status `Cli.Run` (`part_000`, lines 65-154) returns on each
event.  `flag.ErrHelp` returns the literal `0`; an `ErrExitable` runner
error returns the status the error carries. -/
def cliRunExit : CliEvent → Int
  | CliEvent.parseHelp => 0
  | CliEvent.parseError => ExitCodeParseFlagsError
  | CliEvent.configLoadError => ExitCodeConfigError
  | CliEvent.setupError => ExitCodeConfigError
  | CliEvent.versionFlag => ExitCodeOK
  | CliEvent.newRunnerError => ExitCodeRunnerError
  | CliEvent.runnerError none => ExitCodeRunnerError
  | CliEvent.runnerError (some s) => s
  | CliEvent.runnerDone => ExitCodeOK
  | CliEvent.reloadConfigLoadError => ExitCodeConfigError
  | CliEvent.reloadSetupError => ExitCodeConfigError
  | CliEvent.reloadNewRunnerError => ExitCodeRunnerError
  | CliEvent.killSignal => ExitCodeInterrupt
  | CliEvent.otherSignal => ExitCodeInterrupt
  | CliEvent.internalStop => ExitCodeOK

end Main

/-! ## Helper lemmas -/

namespace Config

lemma truncLog2_twoThirds : truncLog2 (2 / 3 : ℚ) = 0 := by
  rw [truncLog2, if_neg (by norm_num)]
  rw [Int.clog_of_right_le_one _ (by norm_num)]
  have h1 : ((2 / 3 : ℚ))⁻¹ = 3 / 2 := by norm_num
  have h2 : ⌊(3 / 2 : ℚ)⌋₊ = 1 := by
    rw [Nat.floor_eq_iff (by norm_num)]
    norm_num
  rw [h1, h2, Nat.log_one_right]
  norm_num

lemma intLog_twoThirds : Int.log 2 (2 / 3 : ℚ) = -1 := by
  rw [Int.log_of_right_le_one _ (by norm_num)]
  have h1 : ((2 / 3 : ℚ))⁻¹ = 3 / 2 := by norm_num
  have h2 : ⌈(3 / 2 : ℚ)⌉₊ = 2 := by
    rw [Nat.ceil_eq_iff (by norm_num)]
    norm_num
  rw [h1, h2, Nat.clog_eq_one (by norm_num) (by norm_num)]
  norm_num

lemma truncLog2_nonneg (q : ℚ) (hq : 1 / 2 < q) : 0 ≤ truncLog2 q := by
  have hq0 : 0 < q := lt_trans (by norm_num) hq
  rw [truncLog2]
  split
  · rw [Int.log_of_one_le_right _ (by assumption)]
    exact Int.natCast_nonneg _
  · rename_i h
    rw [Int.clog_of_right_le_one _ (le_of_not_le h)]
    have hinv : q⁻¹ < 2 := by
      rw [inv_lt_comm₀ hq0 (by norm_num)]
      linarith
    have hfl : ⌊q⁻¹⌋₊ < 2 := by
      rw [Nat.floor_lt (inv_nonneg.mpr hq0.le)]
      exact_mod_cast hinv
    rw [Nat.log_of_lt hfl]
    norm_num

lemma smallCfg_ratio :
    ((timeDurationVal smallCfg.MaxBackoff : ℚ) / (timeDurationVal smallCfg.Backoff : ℚ)) =
      2 / 3 := by
  norm_num [smallCfg, timeDurationVal]

lemma wrap64_eq_self {x : Int} (h1 : -(2 ^ 63) ≤ x) (h2 : x < 2 ^ 63) : wrap64 x = x := by
  have e63 : (2 : Int) ^ 63 = 9223372036854775808 := by norm_num
  have e64 : (2 : Int) ^ 64 = 18446744073709551616 := by norm_num
  unfold wrap64
  rw [e63, e64]
  rw [e63] at h1 h2
  rw [Int.emod_eq_of_lt (by omega) (by omega)]
  omega

lemma smallCfg_retry_zero : smallCfg.retryFunc 0 = (true, 3) := by
  rw [RetryConfig.retryFunc]
  rw [if_neg (by norm_num [smallCfg, boolVal])]
  rw [if_neg (by norm_num [smallCfg, intVal])]
  rw [if_neg (by rw [smallCfg_ratio, truncLog2_twoThirds]; norm_num)]
  norm_num [smallCfg, timeDurationVal, wrap64]

lemma smallCfg_retry_one : smallCfg.retryFunc 1 = (true, 2) := by
  rw [RetryConfig.retryFunc]
  rw [if_neg (by norm_num [smallCfg, boolVal])]
  rw [if_neg (by norm_num [smallCfg, intVal])]
  rw [if_pos (by rw [smallCfg_ratio, truncLog2_twoThirds]; norm_num [smallCfg, timeDurationVal])]
  norm_num [smallCfg, timeDurationVal]

lemma smallCfg_spec_floor_zero : retrySpecFloor smallCfg 0 = (true, 2) := by
  rw [retrySpecFloor]
  rw [if_neg (by norm_num [smallCfg, boolVal])]
  rw [if_neg (by norm_num [smallCfg, intVal])]
  rw [if_pos (by rw [smallCfg_ratio, intLog_twoThirds]; norm_num [smallCfg, timeDurationVal])]
  norm_num [smallCfg, timeDurationVal]

lemma pow_mul_le_max {base max : Int} (i : ℕ) (hb : 0 < base)
    (hbm : base ≤ max)
    (hi : (i : Int) ≤ truncLog2 ((max : ℚ) / (base : ℚ))) :
    2 ^ i * base ≤ max := by
  have hbq : (0 : ℚ) < (base : ℚ) := by exact_mod_cast hb
  have hq1 : (1 : ℚ) ≤ (max : ℚ) / (base : ℚ) := by
    rw [one_le_div hbq]
    exact_mod_cast hbm
  have hq0 : (0 : ℚ) < (max : ℚ) / (base : ℚ) := lt_of_lt_of_le one_pos hq1
  rw [truncLog2, if_pos hq1] at hi
  have hkey : (2 : ℚ) ^ Int.log 2 ((max : ℚ) / (base : ℚ)) ≤ (max : ℚ) / (base : ℚ) := by
    exact_mod_cast Int.zpow_log_le_self (by norm_num) hq0
  have hmono : (2 : ℚ) ^ (i : Int) ≤ (2 : ℚ) ^ Int.log 2 ((max : ℚ) / (base : ℚ)) :=
    zpow_le_zpow_right₀ (by norm_num) hi
  have hpow : (2 : ℚ) ^ (i : Int) = ((2 ^ i : Int) : ℚ) := by
    rw [zpow_natCast]
    push_cast
    ring
  have hle : ((2 ^ i : Int) : ℚ) * (base : ℚ) ≤ ((max : ℚ) / (base : ℚ)) * (base : ℚ) := by
    apply mul_le_mul_of_nonneg_right _ hbq.le
    rw [← hpow]
    exact le_trans hmono hkey
  rw [div_mul_cancel₀ _ (ne_of_gt hbq)] at hle
  exact_mod_cast hle

end Config

/-! ## Claim C1: process exit statuses -/

/-- C1, counterexample.  The claim's mapping (`ExitCodeError` = 10,
`ExitCodeInterrupt` = 11, `ExitCodeParseFlagsError` = 12,
`ExitCodeRunnerError` = 13, `ExitCodeConfigError` = 14) is false: in the
source const block `ExitCodeError = 10 + iota` is the second ConstSpec,
so every error constant is one larger. -/
theorem c1_exit_codes_counterexample :
    ¬(Main.ExitCodeError = 10 ∧ Main.ExitCodeInterrupt = 11 ∧
      Main.ExitCodeParseFlagsError = 12 ∧ Main.ExitCodeRunnerError = 13 ∧
      Main.ExitCodeConfigError = 14) := by
  intro h
  exact absurd h.1 (by decide)

/-- C1, amended: the exit statuses form the closed mapping 0 for ok, 11
for a generic error, 12 for interrupted, 13 for a flag-parse error, 14
for a runner error, 15 for a config error — the integer values of
`ExitCodeOK`, `ExitCodeError`, `ExitCodeInterrupt`,
`ExitCodeParseFlagsError`, `ExitCodeRunnerError`, `ExitCodeConfigError`
— and on every event whose error carries no exit-status hint `Cli.Run`
returns one of these constants. -/
theorem c1_exit_codes (e : Main.CliEvent)
    (hnohint : ∀ s : Int, e ≠ Main.CliEvent.runnerError (some s)) :
    (Main.ExitCodeOK = 0 ∧ Main.ExitCodeError = 11 ∧ Main.ExitCodeInterrupt = 12 ∧
      Main.ExitCodeParseFlagsError = 13 ∧ Main.ExitCodeRunnerError = 14 ∧
      Main.ExitCodeConfigError = 15) ∧
    Main.cliRunExit e ∈ [Main.ExitCodeOK, Main.ExitCodeError, Main.ExitCodeInterrupt,
      Main.ExitCodeParseFlagsError, Main.ExitCodeRunnerError, Main.ExitCodeConfigError] := by
  refine ⟨by decide, ?_⟩
  cases e with
  | runnerError hint =>
    cases hint with
    | none => decide
    | some s => exact absurd rfl (hnohint s)
  | parseHelp => decide
  | parseError => decide
  | configLoadError => decide
  | setupError => decide
  | versionFlag => decide
  | newRunnerError => decide
  | runnerDone => decide
  | reloadConfigLoadError => decide
  | reloadSetupError => decide
  | reloadNewRunnerError => decide
  | killSignal => decide
  | otherSignal => decide
  | internalStop => decide

/-- C1, witness: the kill-signal event carries no hint and `Cli.Run`
returns `ExitCodeInterrupt` = 12 on it. -/
theorem c1_exit_codes_witness :
    Main.ExitCodeError = 11 ∧
    Main.cliRunExit Main.CliEvent.killSignal ∈ [Main.ExitCodeOK, Main.ExitCodeError,
      Main.ExitCodeInterrupt, Main.ExitCodeParseFlagsError, Main.ExitCodeRunnerError,
      Main.ExitCodeConfigError] :=
  ⟨((c1_exit_codes Main.CliEvent.killSignal (fun _ h => Main.CliEvent.noConfusion h)).1).2.1,
    (c1_exit_codes Main.CliEvent.killSignal (fun _ h => Main.CliEvent.noConfusion h)).2⟩

/-! ## Claims C3, C4, C10: the retry/backoff policy -/

/-- C3, counterexample.  Two independent defects: (1) on the finalized
policy `smallCfg` (backoff 3ns, maxBackoff 2ns, unlimited attempts,
enabled), `decide(0)` returns `(true, 3)` while the claim's reference —
clamp once the index exceeds `floor(log2(maxBackoff / baseBackoff)) = -1`
— returns `(true, 2)`: Go's `int(math.Log2(2/3))` truncates `-0.58…`
toward zero to `0`, not to the floor `-1`; (2) on `unlimitedCfg`
(attempts 0, backoff 250ms, maxBackoff 0) at attempt index 36 the int64
product `2^36 * 250000000` wraps to a negative duration, while the
reference's exact `baseBackoff * 2^36` is a huge positive one. -/
theorem c3_retry_counterexample :
    Config.RetryConfig.retryFunc Config.smallCfg 0 ≠
      Config.retrySpecFloor Config.smallCfg 0 ∧
    Config.RetryConfig.retryFunc Config.unlimitedCfg 36 ≠
      Config.retrySpecFloor Config.unlimitedCfg 36 := by
  constructor
  · rw [Config.smallCfg_retry_zero, Config.smallCfg_spec_floor_zero]
    decide
  · decide

/-- C3, amended: for every finalized retry policy with a positive base
backoff, `decide(i)` equals the reference definition with the clamp
threshold `trunc(log2(maxBackoff / baseBackoff))` (truncation toward
zero, as Go's `int(...)` conversion performs) in place of the floor, at
every attempt index whose exact backoff product `2^i * baseBackoff`
still fits in the signed 64-bit duration range (beyond it the int64
product wraps and diverges from the reference's exact arithmetic); and
`decide(0)` returns `(true, baseBackoff)` whenever retries are enabled
and additionally `maxBackoff = 0` or `baseBackoff < 2 * maxBackoff`
(otherwise the clamp already fires at index 0 and `decide(0)` returns
`(true, maxBackoff)`). -/
theorem c3_retry_matches_trunc_spec (c : Config.RetryConfig)
    (hb : 0 < Config.timeDurationVal c.Backoff) :
    (∀ i : ℕ, 2 ^ i * Config.timeDurationVal c.Backoff < 2 ^ 63 →
      c.retryFunc i = Config.retrySpecTrunc c i) ∧
    (Config.boolVal c.Enabled = true →
      Config.timeDurationVal c.Backoff < 2 ^ 63 →
      (Config.timeDurationVal c.MaxBackoff = 0 ∨
        Config.timeDurationVal c.Backoff < 2 * Config.timeDurationVal c.MaxBackoff) →
      c.retryFunc 0 = (true, Config.timeDurationVal c.Backoff)) := by
  have hwrap : ∀ (k : ℕ), 2 ^ k * Config.timeDurationVal c.Backoff < 2 ^ 63 →
      Config.wrap64 (2 ^ k * Config.timeDurationVal c.Backoff) =
        2 ^ k * Config.timeDurationVal c.Backoff := fun k hfit =>
    Config.wrap64_eq_self
      (le_trans (by norm_num) (mul_pos (pow_pos (by norm_num) k) hb).le) hfit
  constructor
  · intro i hfit
    rw [Config.RetryConfig.retryFunc, Config.retrySpecTrunc]
    by_cases he : Config.boolVal c.Enabled = false
    · rw [if_pos he, if_pos he]
    · rw [if_neg he, if_neg he]
      by_cases hcap : 0 < Config.intVal c.Attempts ∧ Config.intVal c.Attempts ≤ (i : Int)
      · rw [if_pos (show 0 < Config.intVal c.Attempts ∧
            Config.intVal c.Attempts - 1 < (i : Int) by omega), if_pos hcap]
      · rw [if_neg (show ¬(0 < Config.intVal c.Attempts ∧
            Config.intVal c.Attempts - 1 < (i : Int)) by omega), if_neg hcap]
        by_cases hcl : 0 < Config.timeDurationVal c.MaxBackoff ∧
            Config.truncLog2 ((Config.timeDurationVal c.MaxBackoff : ℚ) /
              (Config.timeDurationVal c.Backoff : ℚ)) < (i : Int)
        · rw [if_pos hcl, if_pos hcl]
        · rw [if_neg hcl, if_neg hcl, hwrap i hfit]
          exact congrArg _ (mul_comm _ _)
  · intro hen hb63 hcase
    have hne : ¬ Config.boolVal c.Enabled = false := by simp [hen]
    rw [Config.RetryConfig.retryFunc, if_neg hne]
    rw [if_neg (show ¬(0 < Config.intVal c.Attempts ∧
      Config.intVal c.Attempts - 1 < ((0 : ℕ) : Int)) by omega)]
    rw [if_neg ?_]
    · have h1 : (2 : Int) ^ (0 : ℕ) * Config.timeDurationVal c.Backoff =
          Config.timeDurationVal c.Backoff := by norm_num
      rw [h1, Config.wrap64_eq_self (le_trans (by norm_num) hb.le) hb63]
    · rcases hcase with h0 | hlt
      · rw [h0]
        exact fun h => absurd h.1 (lt_irrefl 0)
      · intro h
        rcases h with ⟨hm, hlog⟩
        have hb2 : (0 : ℚ) < (Config.timeDurationVal c.Backoff : ℚ) := by exact_mod_cast hb
        have hltQ : (Config.timeDurationVal c.Backoff : ℚ) <
            2 * (Config.timeDurationVal c.MaxBackoff : ℚ) := by exact_mod_cast hlt
        have hhalf : (1 : ℚ) / 2 < (Config.timeDurationVal c.MaxBackoff : ℚ) /
            (Config.timeDurationVal c.Backoff : ℚ) := by
          rw [div_lt_div_iff₀ (by norm_num) hb2]
          linarith
        have := Config.truncLog2_nonneg _ hhalf
        omega

/-- C3, witness: the default finalized policy with no clamp
(`maxBackoff` 0): the product at index 1 fits in 64 bits, `decide`
agrees with the amended reference there, and `decide(0)` returns
`(true, baseBackoff)`. -/
theorem c3_retry_matches_trunc_spec_witness :
    0 < Config.timeDurationVal
      (⟨some 12, some 250000000, some 0, some true⟩ : Config.RetryConfig).Backoff ∧
    2 ^ 1 * Config.timeDurationVal
      (⟨some 12, some 250000000, some 0, some true⟩ : Config.RetryConfig).Backoff < 2 ^ 63 ∧
    Config.RetryConfig.retryFunc ⟨some 12, some 250000000, some 0, some true⟩ 1 =
      Config.retrySpecTrunc ⟨some 12, some 250000000, some 0, some true⟩ 1 ∧
    Config.RetryConfig.retryFunc ⟨some 12, some 250000000, some 0, some true⟩ 0 =
      (true, Config.timeDurationVal
        (⟨some 12, some 250000000, some 0, some true⟩ : Config.RetryConfig).Backoff) :=
  ⟨by decide, by decide,
    (c3_retry_matches_trunc_spec ⟨some 12, some 250000000, some 0, some true⟩
      (by decide)).1 1 (by decide),
    (c3_retry_matches_trunc_spec ⟨some 12, some 250000000, some 0, some true⟩ (by decide)).2
      (by decide) (by decide) (Or.inl (by decide))⟩

/-- C4, counterexample.  Two independent defects: (1) on the finalized
enabled policy `smallCfg` (backoff 3ns, maxBackoff 2ns > 0), both
indices 0 and 1 permit a retry, yet the wait decreases from 3 to 2 and
the wait at index 0 exceeds `maxBackoff`; (2) on `unlimitedCfg`
(attempts 0, backoff 250ms, maxBackoff 0), both indices 35 and 36 permit
a retry, yet the int64 product wraps negative at 36 and the wait
decreases. -/
theorem c4_backoff_counterexample :
    ((Config.RetryConfig.retryFunc Config.smallCfg 0).1 = true ∧
      (Config.RetryConfig.retryFunc Config.smallCfg 1).1 = true ∧
      ¬((Config.RetryConfig.retryFunc Config.smallCfg 0).2 ≤
        (Config.RetryConfig.retryFunc Config.smallCfg 1).2) ∧
      0 < Config.timeDurationVal Config.smallCfg.MaxBackoff ∧
      ¬((Config.RetryConfig.retryFunc Config.smallCfg 0).2 ≤
        Config.timeDurationVal Config.smallCfg.MaxBackoff)) ∧
    ((Config.RetryConfig.retryFunc Config.unlimitedCfg 35).1 = true ∧
      (Config.RetryConfig.retryFunc Config.unlimitedCfg 36).1 = true ∧
      ¬((Config.RetryConfig.retryFunc Config.unlimitedCfg 35).2 ≤
        (Config.RetryConfig.retryFunc Config.unlimitedCfg 36).2)) := by
  constructor
  · rw [Config.smallCfg_retry_zero, Config.smallCfg_retry_one]
    refine ⟨rfl, rfl, by decide, by decide, by decide⟩
  · refine ⟨by decide, by decide, by decide⟩

/-- C4, amended: for every finalized policy with retries enabled, a
positive base backoff, `baseBackoff ≤ maxBackoff` whenever
`maxBackoff > 0` (the regime `maxBackoff > 0 ∧ maxBackoff < baseBackoff`
violates both parts), and `maxBackoff` within the signed 64-bit duration
range: when `maxBackoff > 0` the wait returned by `decide` is
monotonically non-decreasing over all indices where retrying is allowed
and never exceeds `maxBackoff`; when `maxBackoff = 0` (no clamp) the
wait is monotonically non-decreasing over the allowed indices whose
exact backoff product `2^i * baseBackoff` still fits in the signed
64-bit range (past it the int64 product wraps negative). -/
theorem c4_backoff_monotone_bounded (c : Config.RetryConfig)
    (hen : Config.boolVal c.Enabled = true)
    (hb : 0 < Config.timeDurationVal c.Backoff)
    (hbm : 0 < Config.timeDurationVal c.MaxBackoff →
      Config.timeDurationVal c.Backoff ≤ Config.timeDurationVal c.MaxBackoff)
    (hm63 : Config.timeDurationVal c.MaxBackoff < 2 ^ 63) :
    (0 < Config.timeDurationVal c.MaxBackoff →
      (∀ i j : ℕ, i ≤ j → (c.retryFunc i).1 = true → (c.retryFunc j).1 = true →
        (c.retryFunc i).2 ≤ (c.retryFunc j).2) ∧
      (∀ i : ℕ, (c.retryFunc i).2 ≤ Config.timeDurationVal c.MaxBackoff)) ∧
    (Config.timeDurationVal c.MaxBackoff = 0 →
      ∀ i j : ℕ, i ≤ j → 2 ^ j * Config.timeDurationVal c.Backoff < 2 ^ 63 →
        (c.retryFunc i).1 = true → (c.retryFunc j).1 = true →
        (c.retryFunc i).2 ≤ (c.retryFunc j).2) := by
  have hne : ¬ Config.boolVal c.Enabled = false := by simp [hen]
  have hrf : ∀ i : ℕ, c.retryFunc i =
      if 0 < Config.intVal c.Attempts ∧ Config.intVal c.Attempts - 1 < (i : Int) then
        ((false, 0) : Bool × Int)
      else if 0 < Config.timeDurationVal c.MaxBackoff ∧
          Config.truncLog2 ((Config.timeDurationVal c.MaxBackoff : ℚ) /
            (Config.timeDurationVal c.Backoff : ℚ)) < (i : Int) then
        (true, Config.timeDurationVal c.MaxBackoff)
      else (true, Config.wrap64 (2 ^ i * Config.timeDurationVal c.Backoff)) := by
    intro i
    rw [Config.RetryConfig.retryFunc, if_neg hne]
  have hwrap : ∀ (k : ℕ), 2 ^ k * Config.timeDurationVal c.Backoff < 2 ^ 63 →
      Config.wrap64 (2 ^ k * Config.timeDurationVal c.Backoff) =
        2 ^ k * Config.timeDurationVal c.Backoff := fun k hfit =>
    Config.wrap64_eq_self
      (le_trans (by norm_num) (mul_pos (pow_pos (by norm_num) k) hb).le) hfit
  constructor
  · intro hm
    constructor
    · intro i j hij h1 h2
      rw [hrf i] at h1
      rw [hrf j] at h2
      rw [hrf i, hrf j]
      by_cases hci : 0 < Config.intVal c.Attempts ∧ Config.intVal c.Attempts - 1 < (i : Int)
      · rw [if_pos hci] at h1
        exact absurd h1 (by simp)
      · by_cases hcj : 0 < Config.intVal c.Attempts ∧
            Config.intVal c.Attempts - 1 < (j : Int)
        · rw [if_pos hcj] at h2
          exact absurd h2 (by simp)
        · rw [if_neg hci, if_neg hcj]
          by_cases hli : 0 < Config.timeDurationVal c.MaxBackoff ∧
              Config.truncLog2 ((Config.timeDurationVal c.MaxBackoff : ℚ) /
                (Config.timeDurationVal c.Backoff : ℚ)) < (i : Int)
          · have hlj : 0 < Config.timeDurationVal c.MaxBackoff ∧
                Config.truncLog2 ((Config.timeDurationVal c.MaxBackoff : ℚ) /
                  (Config.timeDurationVal c.Backoff : ℚ)) < (j : Int) :=
              ⟨hli.1, by have := hli.2; omega⟩
            rw [if_pos hli, if_pos hlj]
          · rw [if_neg hli]
            have hile : (i : Int) ≤ Config.truncLog2
                ((Config.timeDurationVal c.MaxBackoff : ℚ) /
                  (Config.timeDurationVal c.Backoff : ℚ)) := by
              rcases not_and_or.mp hli with h | h
              · exact absurd hm h
              · omega
            have hprodi : 2 ^ i * Config.timeDurationVal c.Backoff ≤
                Config.timeDurationVal c.MaxBackoff :=
              Config.pow_mul_le_max i hb (hbm hm) hile
            by_cases hlj : 0 < Config.timeDurationVal c.MaxBackoff ∧
                Config.truncLog2 ((Config.timeDurationVal c.MaxBackoff : ℚ) /
                  (Config.timeDurationVal c.Backoff : ℚ)) < (j : Int)
            · rw [if_pos hlj, hwrap i (lt_of_le_of_lt hprodi hm63)]
              exact hprodi
            · rw [if_neg hlj]
              have hjle : (j : Int) ≤ Config.truncLog2
                  ((Config.timeDurationVal c.MaxBackoff : ℚ) /
                    (Config.timeDurationVal c.Backoff : ℚ)) := by
                rcases not_and_or.mp hlj with h | h
                · exact absurd hm h
                · omega
              have hprodj : 2 ^ j * Config.timeDurationVal c.Backoff ≤
                  Config.timeDurationVal c.MaxBackoff :=
                Config.pow_mul_le_max j hb (hbm hm) hjle
              rw [hwrap i (lt_of_le_of_lt hprodi hm63),
                hwrap j (lt_of_le_of_lt hprodj hm63)]
              have hpw : (2 : Int) ^ i ≤ 2 ^ j := pow_le_pow_right₀ (by norm_num) hij
              exact mul_le_mul_of_nonneg_right hpw hb.le
    · intro i
      rw [hrf i]
      by_cases hci : 0 < Config.intVal c.Attempts ∧ Config.intVal c.Attempts - 1 < (i : Int)
      · rw [if_pos hci]
        exact hm.le
      · rw [if_neg hci]
        by_cases hli : 0 < Config.timeDurationVal c.MaxBackoff ∧
            Config.truncLog2 ((Config.timeDurationVal c.MaxBackoff : ℚ) /
              (Config.timeDurationVal c.Backoff : ℚ)) < (i : Int)
        · rw [if_pos hli]
        · rw [if_neg hli]
          have hile : (i : Int) ≤ Config.truncLog2
              ((Config.timeDurationVal c.MaxBackoff : ℚ) /
                (Config.timeDurationVal c.Backoff : ℚ)) := by
            rcases not_and_or.mp hli with h | h
            · exact absurd hm h
            · omega
          have hprodi : 2 ^ i * Config.timeDurationVal c.Backoff ≤
              Config.timeDurationVal c.MaxBackoff :=
            Config.pow_mul_le_max i hb (hbm hm) hile
          rw [hwrap i (lt_of_le_of_lt hprodi hm63)]
          exact hprodi
  · intro hm0 i j hij hfitj h1 h2
    have hclf : ∀ k : ℕ, ¬(0 < Config.timeDurationVal c.MaxBackoff ∧
        Config.truncLog2 ((Config.timeDurationVal c.MaxBackoff : ℚ) /
          (Config.timeDurationVal c.Backoff : ℚ)) < (k : Int)) := by
      intro k hc
      rw [hm0] at hc
      exact absurd hc.1 (lt_irrefl 0)
    rw [hrf i] at h1
    rw [hrf j] at h2
    rw [hrf i, hrf j]
    by_cases hci : 0 < Config.intVal c.Attempts ∧ Config.intVal c.Attempts - 1 < (i : Int)
    · rw [if_pos hci] at h1
      exact absurd h1 (by simp)
    · by_cases hcj : 0 < Config.intVal c.Attempts ∧ Config.intVal c.Attempts - 1 < (j : Int)
      · rw [if_pos hcj] at h2
        exact absurd h2 (by simp)
      · rw [if_neg hci, if_neg hcj, if_neg (hclf i), if_neg (hclf j)]
        have hpw : (2 : Int) ^ i ≤ 2 ^ j := pow_le_pow_right₀ (by norm_num) hij
        have hmono : 2 ^ i * Config.timeDurationVal c.Backoff ≤
            2 ^ j * Config.timeDurationVal c.Backoff :=
          mul_le_mul_of_nonneg_right hpw hb.le
        rw [hwrap i (lt_of_le_of_lt hmono hfitj), hwrap j hfitj]
        exact hmono

/-- C4, witness: an unclamped enabled policy (`maxBackoff` 0, backoff
250ms), indices 0 ≤ 2 both allowed with both products inside the 64-bit
range, and the wait does not decrease. -/
theorem c4_backoff_monotone_bounded_witness :
    Config.boolVal (⟨some 12, some 250000000, some 0, some true⟩ :
      Config.RetryConfig).Enabled = true ∧
    2 ^ 2 * Config.timeDurationVal (⟨some 12, some 250000000, some 0, some true⟩ :
      Config.RetryConfig).Backoff < 2 ^ 63 ∧
    (Config.RetryConfig.retryFunc ⟨some 12, some 250000000, some 0, some true⟩ 0).1 = true ∧
    (Config.RetryConfig.retryFunc ⟨some 12, some 250000000, some 0, some true⟩ 2).1 = true ∧
    (Config.RetryConfig.retryFunc ⟨some 12, some 250000000, some 0, some true⟩ 0).2 ≤
      (Config.RetryConfig.retryFunc ⟨some 12, some 250000000, some 0, some true⟩ 2).2 :=
  ⟨by decide, by decide, by decide, by decide,
    (c4_backoff_monotone_bounded ⟨some 12, some 250000000, some 0, some true⟩ (by decide)
      (by decide) (fun h => absurd h (by decide)) (by decide)).2 (by decide)
      0 2 (by decide) (by decide) (by decide) (by decide)⟩

/-- C10: when retries are enabled and the configured attempts value is
negative, `decide` behaves exactly as with attempts 0 — the cap check
requires a strictly positive attempts value — and permits a retry at
every index. -/
theorem c10_negative_attempts_unlimited (c : Config.RetryConfig)
    (hen : Config.boolVal c.Enabled = true)
    (hneg : Config.intVal c.Attempts < 0) :
    ∀ i : ℕ,
      c.retryFunc i =
        Config.RetryConfig.retryFunc ⟨some 0, c.Backoff, c.MaxBackoff, c.Enabled⟩ i ∧
      (c.retryFunc i).1 = true := by
  intro i
  have hne : ¬ Config.boolVal c.Enabled = false := by simp [hen]
  have hcapc : ¬(0 < Config.intVal c.Attempts ∧
      Config.intVal c.Attempts - 1 < (i : Int)) := by omega
  have hcap0 : ¬(0 < Config.intVal
      (⟨some 0, c.Backoff, c.MaxBackoff, c.Enabled⟩ : Config.RetryConfig).Attempts ∧
      Config.intVal (⟨some 0, c.Backoff, c.MaxBackoff, c.Enabled⟩ :
        Config.RetryConfig).Attempts - 1 < (i : Int)) := by
    simp [Config.intVal]
  have heq : c.retryFunc i =
      Config.RetryConfig.retryFunc ⟨some 0, c.Backoff, c.MaxBackoff, c.Enabled⟩ i := by
    rw [Config.RetryConfig.retryFunc, Config.RetryConfig.retryFunc]
    rw [if_neg hne, if_neg hcapc, if_neg hne, if_neg hcap0]
  refine ⟨heq, ?_⟩
  rw [Config.RetryConfig.retryFunc, if_neg hne, if_neg hcapc]
  by_cases hli : 0 < Config.timeDurationVal c.MaxBackoff ∧
      Config.truncLog2 ((Config.timeDurationVal c.MaxBackoff : ℚ) /
        (Config.timeDurationVal c.Backoff : ℚ)) < (i : Int)
  · rw [if_pos hli]
  · rw [if_neg hli]

/-- C10, witness: attempts -5, no clamp; at index 4 the decision equals
the attempts-0 decision and permits the retry. -/
theorem c10_negative_attempts_unlimited_witness :
    Config.boolVal (⟨some (-5), some 7, some 0, some true⟩ :
      Config.RetryConfig).Enabled = true ∧
    Config.intVal (⟨some (-5), some 7, some 0, some true⟩ :
      Config.RetryConfig).Attempts < 0 ∧
    (Config.RetryConfig.retryFunc ⟨some (-5), some 7, some 0, some true⟩ 4 =
      Config.RetryConfig.retryFunc ⟨some 0, some 7, some 0, some true⟩ 4 ∧
    (Config.RetryConfig.retryFunc ⟨some (-5), some 7, some 0, some true⟩ 4).1 = true) :=
  ⟨by decide, by decide,
    c10_negative_attempts_unlimited ⟨some (-5), some 7, some 0, some true⟩
      (by decide) (by decide) 4⟩

/-! ## Helper lemmas for the processor and the runner -/

lemma lookup_setFile_ne (fs : List (String × String)) (f v g : String) (hne : g ≠ f) :
    lookupFile (setFile fs f v) g = lookupFile fs g := by
  induction fs with
  | nil =>
    simp only [setFile, lookupFile]
    rw [if_neg (fun hfg => hne hfg.symm)]
  | cons kv rest ih =>
    cases kv with
    | mk k u =>
      by_cases hk : k = f
      · subst hk
        rw [setFile, if_pos rfl]
        simp only [lookupFile]
        rw [if_neg (fun hfg => hne hfg.symm), if_neg (fun hfg => hne hfg.symm)]
      · rw [setFile, if_neg hk]
        simp only [lookupFile]
        by_cases hkg : k = g
        · rw [if_pos hkg, if_pos hkg]
        · rw [if_neg hkg, if_neg hkg, ih]

namespace Processor

lemma save_dry (fp s : String) (w : World) : save true fp s w = Except.ok w := rfl

lemma save_nondry_ok (fp s : String) (w : World) (hbw : fp ∉ w.badWrite) :
    save false fp s w = Except.ok ⟨setFile w.files fp s, w.dirs, w.badWrite, w.badDirs⟩ := by
  simp only [save]
  rw [if_neg (by decide), if_neg hbw]

lemma processList_cons (dry : Bool) (toDir : String) (h : String → String) (w : World)
    (pair : KVPair) (rest : List KVPair) :
    processList dry toDir h w (pair :: rest) =
      match processEntry dry toDir h w pair with
      | Except.error e => Except.error e
      | Except.ok (w', s) =>
        match processList dry toDir h w' rest with
        | Except.error e => Except.error e
        | Except.ok (w'', l) => Except.ok (w'', s.toList ++ l) := rfl

lemma entryDecision_congr (toDir : String) (h : String → String) (w1 w2 : World)
    (pair : KVPair)
    (hlk : lookupFile w2.files (joinPath toDir (leafOf pair.key)) =
      lookupFile w1.files (joinPath toDir (leafOf pair.key))) :
    entryDecision toDir h w2 pair = entryDecision toDir h w1 pair := by
  simp only [entryDecision, hlk]

lemma processEntry_dry (toDir : String) (h : String → String) (w : World) (pair : KVPair) :
    processEntry true toDir h w pair = Except.ok (w, entryDecision toDir h w pair) := by
  simp only [processEntry, entryDecision]
  by_cases hleaf : leafOf pair.key ≠ ""
  · rw [if_pos hleaf, if_pos hleaf]
    by_cases hdif : (match lookupFile w.files (joinPath toDir (leafOf pair.key)) with
        | some content => h content
        | none => "") ≠ h pair.value
    · rw [if_pos hdif, if_pos hdif, save_dry]
    · rw [if_neg hdif, if_neg hdif]
  · rw [if_neg hleaf, if_neg hleaf]

lemma processEntry_nondry_skip (toDir : String) (h : String → String) (w : World)
    (pair : KVPair) (hd : entryDecision toDir h w pair = none) :
    processEntry false toDir h w pair = Except.ok (w, none) := by
  simp only [processEntry, entryDecision] at hd ⊢
  by_cases hleaf : leafOf pair.key ≠ ""
  · rw [if_pos hleaf] at hd ⊢
    by_cases hdif : (match lookupFile w.files (joinPath toDir (leafOf pair.key)) with
        | some content => h content
        | none => "") ≠ h pair.value
    · rw [if_pos hdif] at hd
      cases hd
    · rw [if_neg hdif]
  · rw [if_neg hleaf]

lemma processEntry_nondry_write (toDir : String) (h : String → String) (w : World)
    (pair : KVPair) (f : String) (hd : entryDecision toDir h w pair = some f)
    (hbw : w.badWrite = []) :
    processEntry false toDir h w pair =
      Except.ok (⟨setFile w.files f pair.value, w.dirs, w.badWrite, w.badDirs⟩, some f) := by
  simp only [processEntry, entryDecision] at hd ⊢
  by_cases hleaf : leafOf pair.key ≠ ""
  · rw [if_pos hleaf] at hd ⊢
    by_cases hdif : (match lookupFile w.files (joinPath toDir (leafOf pair.key)) with
        | some content => h content
        | none => "") ≠ h pair.value
    · rw [if_pos hdif] at hd
      cases hd
      rw [if_pos hdif, save_nondry_ok _ _ _ (by simp [hbw])]
    · rw [if_neg hdif] at hd
      cases hd
  · rw [if_neg hleaf] at hd
    cases hd

lemma targetsOf_cons (toDir : String) (pair : KVPair) (rest : List KVPair) :
    targetsOf toDir (pair :: rest) =
      if leafOf pair.key = "" then targetsOf toDir rest
      else joinPath toDir (leafOf pair.key) :: targetsOf toDir rest := by
  by_cases hleaf : leafOf pair.key = ""
  · simp [targetsOf, hleaf]
  · simp [targetsOf, hleaf]

lemma processList_dry_nondry (toDir : String) (h : String → String) :
    ∀ (ks : List KVPair) (w1 w2 : World), w2.badWrite = [] →
    (∀ f ∈ targetsOf toDir ks, lookupFile w2.files f = lookupFile w1.files f) →
    (targetsOf toDir ks).Nodup →
    ∃ w2' l, processList false toDir h w2 ks = Except.ok (w2', l) ∧
      processList true toDir h w1 ks = Except.ok (w1, l)
  | [], w1, w2, _, _, _ => ⟨w2, [], rfl, rfl⟩
  | pair :: rest, w1, w2, hbw, hlk, hnd => by
    rw [targetsOf_cons] at hlk hnd
    by_cases hleaf : leafOf pair.key = ""
    · rw [if_pos hleaf] at hlk hnd
      have hd1 : entryDecision toDir h w2 pair = none := by
        simp [entryDecision, hleaf]
      have hd2 : entryDecision toDir h w1 pair = none := by
        simp [entryDecision, hleaf]
      obtain ⟨w2', l, h2, h1⟩ := processList_dry_nondry toDir h rest w1 w2 hbw hlk hnd
      refine ⟨w2', l, ?_, ?_⟩
      · simp only [processList_cons, processEntry_nondry_skip toDir h w2 pair hd1, h2,
          Option.toList_none, List.nil_append]
      · simp only [processList_cons, processEntry_dry, hd2, h1,
          Option.toList_none, List.nil_append]
    · rw [if_neg hleaf] at hlk hnd
      have hlkf : lookupFile w2.files (joinPath toDir (leafOf pair.key)) =
          lookupFile w1.files (joinPath toDir (leafOf pair.key)) :=
        hlk _ (List.mem_cons_self _ _)
      have hdec := entryDecision_congr toDir h w1 w2 pair hlkf
      cases hd : entryDecision toDir h w1 pair with
      | none =>
        obtain ⟨w2', l, h2, h1⟩ := processList_dry_nondry toDir h rest w1 w2 hbw
          (fun f hf => hlk f (List.mem_cons_of_mem _ hf)) hnd.of_cons
        refine ⟨w2', l, ?_, ?_⟩
        · simp only [processList_cons, processEntry_nondry_skip toDir h w2 pair (hdec.trans hd),
            h2, Option.toList_none, List.nil_append]
        · simp only [processList_cons, processEntry_dry, hd, h1,
            Option.toList_none, List.nil_append]
      | some f =>
        have hfval : f = joinPath toDir (leafOf pair.key) := by
          simp only [entryDecision, if_pos hleaf] at hd
          by_cases hdif : (match lookupFile w1.files (joinPath toDir (leafOf pair.key)) with
              | some content => h content
              | none => "") ≠ h pair.value
          · rw [if_pos hdif] at hd
            cases hd
            rfl
          · rw [if_neg hdif] at hd
            cases hd
        have hfnotin : f ∉ targetsOf toDir rest := by
          rw [hfval]
          exact (List.nodup_cons.mp hnd).1
        have hinv : ∀ g ∈ targetsOf toDir rest,
            lookupFile (setFile w2.files f pair.value) g = lookupFile w1.files g := by
          intro g hg
          have hgne : g ≠ f := fun hgf => hfnotin (hgf ▸ hg)
          rw [lookup_setFile_ne _ _ _ _ hgne]
          exact hlk g (List.mem_cons_of_mem _ hg)
        obtain ⟨w2', l, h2, h1⟩ := processList_dry_nondry toDir h rest w1
          ⟨setFile w2.files f pair.value, w2.dirs, w2.badWrite, w2.badDirs⟩ hbw hinv hnd.of_cons
        refine ⟨w2', f :: l, ?_, ?_⟩
        · simp only [processList_cons,
            processEntry_nondry_write toDir h w2 pair f (hdec.trans hd) hbw, h2,
            Option.toList_some, List.singleton_append]
        · simp only [processList_cons, processEntry_dry, hd, h1,
            Option.toList_some, List.singleton_append]

lemma processList_dry (toDir : String) (h : String → String) :
    ∀ (ks : List KVPair) (w : World), ∃ l, processList true toDir h w ks = Except.ok (w, l)
  | [], _ => ⟨[], rfl⟩
  | pair :: rest, w => by
    obtain ⟨l, hl⟩ := processList_dry toDir h rest w
    exact ⟨(entryDecision toDir h w pair).toList ++ l, by
      simp only [processList_cons, processEntry_dry, hl]⟩

end Processor

/-! ## Claim C2: Runner.Start -/

/-- C2, counterexample.  On a successful start (no PID file configured)
the trace of `Runner.Start` before the select loop is `storePid`,
`Runner.Run`, `NewProcessor`, select loop — it contains no
`Processor.Process` pass, while firing a timer tick runs exactly one
such pass: the claimed step (2), "one unconditional synchronization pass
equivalent to firing the first timer tick immediately", does not happen;
`Runner.Run` is a no-op that only logs and returns nil. -/
theorem c2_runner_start_counterexample :
    (Manager.runnerStart "" 7 ⟨[], [], [], []⟩).enteredLoop = true ∧
    Manager.StartStep.procPassStep ∉ (Manager.runnerStart "" 7 ⟨[], [], [], []⟩).trace ∧
    (Manager.loopReact Manager.RunnerEvent.tick).2 = [Manager.StartStep.procPassStep] :=
  ⟨by decide, by decide, by decide⟩

/-- C2, amended: `Runner.Start` executes, in order: (1) if a PID file
path is configured, create/truncate it and write the current process id
as text, and on I/O error send that error on the error channel and
return without entering the loop; (2) call `Runner.Run` — a no-op that
logs and always returns nil, whose error (were it to occur) would be
sent on the error channel like pass errors — so no Processor pass runs
before the loop; (3) only then construct the Processor and enter the
select loop over the error channel, the timer, and the done channel,
invoking one `Processor.Process` pass per tick. -/
theorem c2_runner_start_sequence (pidFile : String) (pid : ℕ) (w : World) :
    (pidFile = "" → Manager.runnerStart pidFile pid w =
      ⟨w, [], true, [Manager.StartStep.storePidStep, Manager.StartStep.runStep,
        Manager.StartStep.newProcessorStep, Manager.StartStep.selectLoopStep]⟩) ∧
    (pidFile ≠ "" → pidFile ∉ w.badWrite → Manager.runnerStart pidFile pid w =
      ⟨⟨setFile w.files pidFile (toString pid), w.dirs, w.badWrite, w.badDirs⟩, [], true,
        [Manager.StartStep.storePidStep, Manager.StartStep.runStep,
          Manager.StartStep.newProcessorStep, Manager.StartStep.selectLoopStep]⟩) ∧
    (pidFile ≠ "" → pidFile ∈ w.badWrite → ∃ e, Manager.runnerStart pidFile pid w =
      ⟨w, [e], false, [Manager.StartStep.storePidStep, Manager.StartStep.sendErrStep e]⟩) ∧
    Manager.runnerRun = Except.ok () ∧
    Manager.loopReact Manager.RunnerEvent.tick = (false, [Manager.StartStep.procPassStep]) ∧
    Manager.loopReact Manager.RunnerEvent.errRecv = (true, []) ∧
    Manager.loopReact Manager.RunnerEvent.doneRecv = (true, []) := by
  refine ⟨?_, ?_, ?_, rfl, rfl, rfl, rfl⟩
  · intro hp
    have hsp : Manager.storePid pidFile pid w = Except.ok w := by
      rw [Manager.storePid, if_pos hp]
    simp only [Manager.runnerStart, hsp, Manager.runnerRun]
  · intro hp hbw
    have hsp : Manager.storePid pidFile pid w =
        Except.ok ⟨setFile w.files pidFile (toString pid), w.dirs, w.badWrite, w.badDirs⟩ := by
      rw [Manager.storePid, if_neg hp, if_neg hbw]
    simp only [Manager.runnerStart, hsp, Manager.runnerRun]
  · intro hp hbw
    have hsp : Manager.storePid pidFile pid w =
        Except.error ("runner: could not open pid file: " ++ pidFile) := by
      rw [Manager.storePid, if_neg hp, if_pos hbw]
    exact ⟨"runner: could not open pid file: " ++ pidFile,
      by simp only [Manager.runnerStart, hsp]⟩

/-- C2, witness: with a writable PID file path `"p"` and pid 1, Start
writes the PID file and enters the loop with the no-pass trace. -/
theorem c2_runner_start_sequence_witness :
    ("p" : String) ≠ "" ∧
    Manager.runnerStart "p" 1 ⟨[], [], [], []⟩ =
      ⟨⟨setFile [] "p" (toString 1), [], [], []⟩, [], true,
        [Manager.StartStep.storePidStep, Manager.StartStep.runStep,
          Manager.StartStep.newProcessorStep, Manager.StartStep.selectLoopStep]⟩ :=
  ⟨by decide,
    (c2_runner_start_sequence "p" 1 ⟨[], [], [], []⟩).2.1 (by decide) (by decide)⟩

/-! ## Claims C5, C6, C7, C8: Processor.Process -/

/-- C5: during a (non-dry) pass, an entry whose key's final path segment
is empty is skipped entirely; otherwise, with the target the destination
directory joined with that segment and the write not failing, the
entry's payload is written there byte-for-byte exactly when the payload
fingerprint differs from the existing local file's fingerprint (a
missing local fingerprint counts as differing, because `Process`
compares against the empty string and fingerprints are never empty), and
when the fingerprints match the entry is skipped with no side effect.
The fingerprint function `h` stands for the hex-encoded SHA-256 of
`getHash`, whose output is never empty. -/
theorem c5_entry_write_iff_fingerprint_differs (toDir : String) (h : String → String)
    (w : World) (pair : KVPair) (hh : ∀ s, h s ≠ "") :
    (Processor.leafOf pair.key = "" →
      Processor.processEntry false toDir h w pair = Except.ok (w, none)) ∧
    (Processor.leafOf pair.key ≠ "" →
      Processor.joinPath toDir (Processor.leafOf pair.key) ∉ w.badWrite →
      ((lookupFile w.files (Processor.joinPath toDir (Processor.leafOf pair.key))).map h ≠
          some (h pair.value) →
        Processor.processEntry false toDir h w pair =
          Except.ok (⟨setFile w.files (Processor.joinPath toDir (Processor.leafOf pair.key))
            pair.value, w.dirs, w.badWrite, w.badDirs⟩,
            some (Processor.joinPath toDir (Processor.leafOf pair.key)))) ∧
      ((lookupFile w.files (Processor.joinPath toDir (Processor.leafOf pair.key))).map h =
          some (h pair.value) →
        Processor.processEntry false toDir h w pair = Except.ok (w, none))) := by
  by_cases hleaf : Processor.leafOf pair.key = ""
  · refine ⟨fun _ => ?_, fun hne => absurd hleaf hne⟩
    simp only [Processor.processEntry]
    rw [if_neg (by simp [hleaf])]
  · have hsave : Processor.joinPath toDir (Processor.leafOf pair.key) ∉ w.badWrite →
        Processor.save false (Processor.joinPath toDir (Processor.leafOf pair.key))
            pair.value w =
          Except.ok ⟨setFile w.files (Processor.joinPath toDir (Processor.leafOf pair.key))
            pair.value, w.dirs, w.badWrite, w.badDirs⟩ :=
      fun hw => Processor.save_nondry_ok _ _ _ hw
    refine ⟨fun hc => absurd hc hleaf, fun _ hw => ?_⟩
    simp only [Processor.processEntry]
    rw [if_pos hleaf]
    cases hlk : lookupFile w.files (Processor.joinPath toDir (Processor.leafOf pair.key)) with
    | none =>
      constructor
      · intro _
        rw [if_pos (fun hc => hh pair.value hc.symm), hsave hw]
      · intro habs
        simp at habs
    | some content =>
      constructor
      · intro hdiff
        have hcd : h content ≠ h pair.value := by
          intro hc
          exact hdiff (by simp [hc])
        rw [if_pos hcd, hsave hw]
      · intro heqv
        simp only [Option.map_some'] at heqv
        rw [if_neg (by simp [Option.some_injective _ heqv])]

/-- C5, witness: a fresh destination, entry `a/x ↦ "p"`, a nonempty
fingerprint function: the leaf is `x`, the target writable, no local
fingerprint exists, and the payload is written byte-for-byte. -/
theorem c5_entry_write_iff_fingerprint_differs_witness :
    Processor.leafOf "a/x" ≠ "" ∧
    Processor.joinPath "d" (Processor.leafOf "a/x") ∉ (⟨[], [], [], []⟩ : World).badWrite ∧
    Processor.processEntry false "d" (fun s => String.mk ('H' :: s.data))
        ⟨[], [], [], []⟩ ⟨"a/x", "p"⟩ =
      Except.ok (⟨setFile [] (Processor.joinPath "d" (Processor.leafOf "a/x")) "p",
        [], [], []⟩, some (Processor.joinPath "d" (Processor.leafOf "a/x"))) :=
  ⟨by decide, by decide,
    ((c5_entry_write_iff_fingerprint_differs "d" (fun s => String.mk ('H' :: s.data))
        ⟨[], [], [], []⟩ ⟨"a/x", "p"⟩
        (fun s hc => by simpa using congrArg String.data hc)).2
      (by decide) (by decide)).1 (by decide)⟩

/-- C6: `Processor.Process` forwards an error on the error channel and
aborts the remainder of the pass exactly when the remote listing fails
or a file write fails: a listing failure yields the unchanged world and
that single error; an empty listing completes the pass with no error and
zero writes; the pass's error list is non-empty precisely when the
listing failed or the write loop failed; and a per-entry error can only
arise from a failing write (in particular a missing/unreadable local
file — `lookupFile` returning `none` — never produces an error). -/
theorem c6_process_error_forwarding (p : Processor.ProcCfg) (h : String → String)
    (w : World) :
    (∀ e : String, Processor.process p h (Except.error e) w =
      ⟨w, [e], 0, [], Processor.ExitCodeError⟩) ∧
    (Processor.process p h (Except.ok []) w =
      ⟨w, [], if p.once || p.dry then 1 else 0, [], Processor.ExitCodeOK⟩) ∧
    (∀ l : Except String (List KVPair), (Processor.process p h l w).errs ≠ [] ↔
      ((∃ e, l = Except.error e) ∨
        (∃ ks x, l = Except.ok ks ∧
          Processor.processList p.dry p.toDir h w ks = Except.error x))) ∧
    (∀ (dry : Bool) (toDir : String) (w' : World) (pair : KVPair) (x : World × String),
      Processor.processEntry dry toDir h w' pair = Except.error x →
      dry = false ∧
        Processor.joinPath toDir (Processor.leafOf pair.key) ∈ w'.badWrite) := by
  refine ⟨fun e => rfl, ?_, ?_, ?_⟩
  · cases hpd : (p.once || p.dry) <;>
      simp [Processor.process, Processor.processList, hpd]
  · intro l
    cases l with
    | error e => simp [Processor.process]
    | ok ks =>
      cases hpl : Processor.processList p.dry p.toDir h w ks with
      | error x =>
        cases x with
        | mk w' e =>
          simp only [Processor.process, hpl]
          constructor
          · intro _
            exact Or.inr ⟨ks, (w', e), rfl, hpl⟩
          · intro _
            simp
      | ok r =>
        cases r with
        | mk w' lst =>
          simp only [Processor.process, hpl]
          constructor
          · intro habs
            cases hpd : (p.once || p.dry) <;> rw [hpd] at habs <;> simp at habs
          · rintro (⟨e, he⟩ | ⟨ks', x, hks, hx⟩)
            · cases he
            · cases hks
              rw [hpl] at hx
              cases hx
  · intro dry toDir w' pair x hpe
    simp only [Processor.processEntry] at hpe
    by_cases hleaf : Processor.leafOf pair.key ≠ ""
    · rw [if_pos hleaf] at hpe
      by_cases hdif : (match lookupFile w'.files
          (Processor.joinPath toDir (Processor.leafOf pair.key)) with
          | some content => h content
          | none => "") ≠ h pair.value
      · rw [if_pos hdif] at hpe
        cases hs : Processor.save dry (Processor.joinPath toDir (Processor.leafOf pair.key))
            pair.value w' with
        | ok w2 =>
          rw [hs] at hpe
          cases hpe
        | error e =>
          cases dry with
          | true =>
            rw [Processor.save, if_pos rfl] at hs
            cases hs
          | false =>
            refine ⟨rfl, ?_⟩
            by_cases hbw : Processor.joinPath toDir (Processor.leafOf pair.key) ∈ w'.badWrite
            · exact hbw
            · rw [Processor.save, if_neg (by decide), if_neg hbw] at hs
              cases hs
      · rw [if_neg hdif] at hpe
        cases hpe
    · rw [if_neg hleaf] at hpe
      cases hpe

/-- C6, witness: a listing failure returns the unchanged world and the
single forwarded error, and the failing write `d/x` (its path is in
`badWrite`) is the only source of a per-entry error. -/
theorem c6_process_error_forwarding_witness :
    Processor.process ⟨"d", "kv", false, false⟩ (fun s => String.mk ('H' :: s.data))
        (Except.error "boom") ⟨[], [], [], []⟩ =
      ⟨⟨[], [], [], []⟩, ["boom"], 0, [], Processor.ExitCodeError⟩ ∧
    Processor.processEntry false "d" (fun s => String.mk ('H' :: s.data))
        ⟨[], [], ["d/x"], []⟩ ⟨"a/x", "p"⟩ =
      Except.error (⟨[], [], ["d/x"], []⟩, "create d/x") ∧
    (false = false ∧
      Processor.joinPath "d" (Processor.leafOf "a/x") ∈
        (⟨[], [], ["d/x"], []⟩ : World).badWrite) :=
  ⟨(c6_process_error_forwarding ⟨"d", "kv", false, false⟩
      (fun s => String.mk ('H' :: s.data)) ⟨[], [], [], []⟩).1 "boom",
    rfl,
    (c6_process_error_forwarding ⟨"d", "kv", false, false⟩
        (fun s => String.mk ('H' :: s.data)) ⟨[], [], [], []⟩).2.2.2
      false "d" ⟨[], [], ["d/x"], []⟩ ⟨"a/x", "p"⟩ (⟨[], [], ["d/x"], []⟩, "create d/x")
      rfl⟩

/-- C7: `Processor.Process` sends a completion value on the done channel
at the end of a pass exactly when the Processor was constructed in
run-once mode or dry-run mode and the pass produced no forwarded error,
regardless of how many writes occurred; otherwise the done count of the
pass is zero. -/
theorem c7_done_signal_iff_once_or_dry (p : Processor.ProcCfg) (h : String → String)
    (l : Except String (List KVPair)) (w : World) :
    (Processor.process p h l w).dones =
      if (p.once || p.dry) = true ∧ (Processor.process p h l w).errs = [] then 1 else 0 := by
  cases l with
  | error e => simp [Processor.process]
  | ok ks =>
    cases hpl : Processor.processList p.dry p.toDir h w ks with
    | error x =>
      cases x with
      | mk w' e => simp [Processor.process, hpl]
    | ok r =>
      cases r with
      | mk w' lst =>
        cases hpd : (p.once || p.dry) <;> simp [Processor.process, hpl, hpd]

/-- C8, counterexample.  Two entries `a/x` and `b/x` with the same
payload share the leaf name `x`: the dry-run pass leaves the world
untouched but reports two would-writes of `d/x`, while the non-dry pass
writes `d/x` once and then skips the second entry because the first
write changed the local fingerprint it is compared against — the
per-entry determinations differ between the modes. -/
theorem c8_dry_run_counterexample :
    (Processor.process ⟨"d", "kv", false, true⟩ (fun s => String.mk ('H' :: s.data))
      (Except.ok [⟨"a/x", "p"⟩, ⟨"b/x", "p"⟩]) ⟨[], [], [], []⟩).world = ⟨[], [], [], []⟩ ∧
    (Processor.process ⟨"d", "kv", false, true⟩ (fun s => String.mk ('H' :: s.data))
      (Except.ok [⟨"a/x", "p"⟩, ⟨"b/x", "p"⟩]) ⟨[], [], [], []⟩).saved ≠
    (Processor.process ⟨"d", "kv", false, false⟩ (fun s => String.mk ('H' :: s.data))
      (Except.ok [⟨"a/x", "p"⟩, ⟨"b/x", "p"⟩]) ⟨[], [], [], []⟩).saved :=
  ⟨by decide, by decide⟩

/-- C8, amended: in dry-run mode a Processor performs no filesystem
mutation whatsoever — the pass leaves the world unchanged for any
listing, and `init` creates no destination directory — and the per-entry
would-write determinations equal those of the non-dry-run mode provided
no write fails and the listed entries' non-empty leaf names map to
pairwise distinct targets (with duplicate leaf names an earlier non-dry
write changes the local file a later duplicate is compared against). -/
theorem c8_dry_run_frame (h : String → String) (toDir fromP : String) (o1 o2 : Bool)
    (l : Except String (List KVPair)) (w : World) :
    (∀ p : Processor.ProcCfg, p.dry = true →
      (Processor.process p h l w).world = w ∧
      Processor.initDir true p.toDir w = (w, [])) ∧
    (∀ ks : List KVPair, w.badWrite = [] → (Processor.targetsOf toDir ks).Nodup →
      (Processor.process ⟨toDir, fromP, o1, true⟩ h (Except.ok ks) w).saved =
        (Processor.process ⟨toDir, fromP, o2, false⟩ h (Except.ok ks) w).saved) := by
  constructor
  · intro p hdry
    refine ⟨?_, rfl⟩
    cases l with
    | error e => rfl
    | ok ks =>
      obtain ⟨lst, hl⟩ := Processor.processList_dry p.toDir h ks w
      rw [Processor.process, hdry, hl]
      cases hpd : (p.once || true) <;> simp
  · intro ks hbw hnd
    obtain ⟨w2', l', h2, h1⟩ :=
      Processor.processList_dry_nondry toDir h ks w w hbw (fun f _ => rfl) hnd
    cases o1 <;> cases o2 <;> simp [Processor.process, h1, h2]

/-- C8, witness: on a single entry with target `d/x`, the dry pass
reports exactly the writes the non-dry pass performs, and a dry
processor leaves the world untouched. -/
theorem c8_dry_run_frame_witness :
    (⟨[], [], [], []⟩ : World).badWrite = [] ∧
    (Processor.targetsOf "d" [⟨"a/x", "1"⟩]).Nodup ∧
    (Processor.process ⟨"d", "kv", false, true⟩ (fun s => String.mk ('H' :: s.data))
        (Except.ok [⟨"a/x", "1"⟩]) ⟨[], [], [], []⟩).saved =
      (Processor.process ⟨"d", "kv", true, false⟩ (fun s => String.mk ('H' :: s.data))
        (Except.ok [⟨"a/x", "1"⟩]) ⟨[], [], [], []⟩).saved ∧
    (Processor.process ⟨"d", "kv", false, true⟩ (fun s => String.mk ('H' :: s.data))
        (Except.ok [⟨"a/x", "1"⟩]) ⟨[], [], [], []⟩).world = ⟨[], [], [], []⟩ :=
  ⟨rfl, by decide,
    (c8_dry_run_frame (fun s => String.mk ('H' :: s.data)) "d" "kv" false true
        (Except.ok [⟨"a/x", "1"⟩]) ⟨[], [], [], []⟩).2 [⟨"a/x", "1"⟩] rfl (by decide),
    ((c8_dry_run_frame (fun s => String.mk ('H' :: s.data)) "d" "kv" false true
        (Except.ok [⟨"a/x", "1"⟩]) ⟨[], [], [], []⟩).1 ⟨"d", "kv", false, true⟩ rfl).1⟩

/-! ## Claim C9: Runner.Stop -/

/-- C9: `Runner.Stop` is idempotent — a call on a stopped Runner returns
it unchanged, a second call is the identity, each call closes the done
channel at most once (so the PID file is removed at most once), and a
PID-file removal failure is swallowed: nothing is sent on the error
channel and the world is left unchanged. -/
theorem c9_stop_idempotent (pidFile : String) (st : Manager.RunnerState) :
    (st.stopped = true → Manager.runnerStop pidFile st = st) ∧
    (Manager.runnerStop pidFile st).stopped = true ∧
    Manager.runnerStop pidFile (Manager.runnerStop pidFile st) =
      Manager.runnerStop pidFile st ∧
    (Manager.runnerStop pidFile st).doneCloses ≤ st.doneCloses + 1 ∧
    (Manager.runnerStop pidFile st).errsSent = st.errsSent ∧
    (∀ e, Manager.deletePid pidFile st.world = Except.error e →
      (Manager.runnerStop pidFile st).world = st.world) := by
  cases hs : st.stopped with
  | true =>
    have hr : Manager.runnerStop pidFile st = st := by
      rw [Manager.runnerStop, if_pos hs]
    rw [hr]
    exact ⟨fun _ => rfl, hs, hr, Nat.le_succ _, rfl, fun _ _ => rfl⟩
  | false =>
    have hr : Manager.runnerStop pidFile st =
        ⟨match Manager.deletePid pidFile st.world with
          | Except.ok w' => w'
          | Except.error _ => st.world, true, st.doneCloses + 1, st.errsSent⟩ := by
      rw [Manager.runnerStop, if_neg (by rw [hs]; exact Bool.false_ne_true)]
    refine ⟨fun hc => absurd hc Bool.false_ne_true, ?_, ?_, ?_, ?_, ?_⟩
    · rw [hr]
    · rw [hr, Manager.runnerStop]
      rw [if_pos rfl, ← hr]
    · rw [hr]
    · rw [hr]
    · intro e he
      rw [hr, he]

/-- C9, witness: stopping a running Runner whose PID file `p` does not
exist on disk — `deletePid` fails, the failure is swallowed, the state
is marked stopped, and a second Stop changes nothing. -/
theorem c9_stop_idempotent_witness :
    Manager.deletePid "p" ⟨[], [], [], []⟩ =
      Except.error "runner: could not remove pid file: p" ∧
    (Manager.runnerStop "p" ⟨⟨[], [], [], []⟩, false, 0, []⟩).world = ⟨[], [], [], []⟩ ∧
    Manager.runnerStop "p" (Manager.runnerStop "p" ⟨⟨[], [], [], []⟩, false, 0, []⟩) =
      Manager.runnerStop "p" ⟨⟨[], [], [], []⟩, false, 0, []⟩ :=
  ⟨rfl,
    (c9_stop_idempotent "p" ⟨⟨[], [], [], []⟩, false, 0, []⟩).2.2.2.2.2
      "runner: could not remove pid file: p" rfl,
    (c9_stop_idempotent "p" ⟨⟨[], [], [], []⟩, false, 0, []⟩).2.2.1⟩

end ConsulGen
